import Mathlib

/-!
Verification development for the fruityger remux engine, streaming transport
and module dispatcher.  The definitions below are shallow embeddings of the
Rust sources:

* `src/format.rs`   — `AudioFormat`, `CoverFormat`, their extension / MIME
  tables and the `TryFrom<&str>` parsers;
* `src/error.rs`    — the crate error enum (the version of `format.rs` in the
  tree refers to an `Error::UnsupportedFormatError` variant, so that variant
  is included alongside the ones listed in `error.rs`);
* `src/remux.rs` and the identical block in `src/lib.rs` (`Client::remux`)
  — the remux pipeline: stream selection, output stream construction,
  metadata dictionary, packet copying;
* `src/yandex.rs` (`Yandex::download`) and `src/ffi.rs` (`download_cover`)
  — the two bounded-channel producers of the streaming transport;
* `src/lib.rs` (`Client::download`, `Client::search`) — the dispatcher.

Calls into the ffmpeg C library (timestamp rescaling, the time base the muxer
assigns to an output stream) are modelled as explicit function parameters of
the embedding; filesystem state, where a claim needs it, is modelled as a
list of (directory, filename) pairs.
-/

/- ===================== formats (src/format.rs) ===================== -/

inductive FfmpegError : Type
  | streamNotFound
  | other (code : Int)
deriving DecidableEq

/-- The crate error enum from `src/error.rs`; `unsupportedFormatError` is the
variant referenced by `src/format.rs`. Payloads irrelevant to the claims are
dropped. -/
inductive Error : Type
  | connectionError
  | ioError
  | remuxError (e : FfmpegError)
  | urlError
  | deserializationError
  | cacheError
  | unsupportedCodecError
  | unsupportedFormatError
  | noAvailableModules
  | serviceError (msg : String)
deriving DecidableEq

instance exceptDecEq {ε α : Type} [DecidableEq ε] [DecidableEq α] :
    DecidableEq (Except ε α) := fun x y =>
  match x, y with
  | .ok a, .ok b =>
    if h : a = b then isTrue (by rw [h])
    else isFalse (by intro hc; cases hc; exact h rfl)
  | .error a, .error b =>
    if h : a = b then isTrue (by rw [h])
    else isFalse (by intro hc; cases hc; exact h rfl)
  | .ok _, .error _ => isFalse (by intro hc; cases hc)
  | .error _, .ok _ => isFalse (by intro hc; cases hc)

inductive AudioFormat : Type
  | flac
  | mp3 (bitrate : Nat)
  | aac (bitrate : Nat)
deriving DecidableEq

def AudioFormat.extension : AudioFormat → String
  | .flac => "flac"
  | .mp3 _ => "mp3"
  | .aac _ => "m4a"

def AudioFormat.mime_type : AudioFormat → String
  | .flac => "audio/flac"
  | .mp3 _ => "audio/mpeg"
  | .aac _ => "audio/mp4"

/-- `impl TryFrom<&str> for AudioFormat` in `src/format.rs`. -/
def AudioFormat.try_from (value : String) : Except Error AudioFormat :=
  if value = "audio/flac" ∨ value = "audio/x-flac" then .ok .flac
  else if value = "audio/mpeg" ∨ value = "audio/mpg" then .ok (.mp3 0)
  else if value = "audio/mp4" ∨ value = "video/mp4" ∨ value = "audio/aac" then .ok (.aac 0)
  else if value.endsWith ".flac" then .ok .flac
  else if value.endsWith ".mp3" then .ok (.mp3 0)
  else if value.endsWith ".m4a" ∨ value.endsWith ".mp4" then .ok (.aac 0)
  else .error .unsupportedFormatError

inductive CoverFormat : Type
  | png
  | jpeg
deriving DecidableEq

def CoverFormat.extension : CoverFormat → String
  | .png => "png"
  | .jpeg => "jpg"

def CoverFormat.mime_type : CoverFormat → String
  | .png => "image/png"
  | .jpeg => "image/jpeg"

/-- `impl TryFrom<&str> for CoverFormat` in `src/format.rs`. -/
def CoverFormat.try_from (value : String) : Except Error CoverFormat :=
  if value = "image/jpeg" then .ok .jpeg
  else if value = "image/png" then .ok .png
  else if value.endsWith ".jpg" then .ok .jpeg
  else if value.endsWith ".png" then .ok .png
  else .error .unsupportedFormatError

/- ===================== ffmpeg container model ===================== -/

/-- `ffmpeg_next::media::Type`. -/
inductive MediaType : Type
  | audio
  | video
  | data
  | subtitle
  | attachment
  | unknown
deriving DecidableEq

/-- An `AVRational` time base. -/
structure TimeBase : Type where
  num : Int
  den : Int
deriving DecidableEq

/-- Codec parameters of a stream: the medium, the `codec_tag` field the remux
code zeroes, and an opaque remainder standing for every other field that
`set_parameters` copies verbatim. -/
structure CodecParameters : Type where
  medium : MediaType
  codec_tag : Nat
  extra : Nat
deriving DecidableEq

/-- An input stream: its codec parameters and its time base. -/
structure InStream : Type where
  params : CodecParameters
  time_base : TimeBase
deriving DecidableEq

/-- An `AVPacket`: owning stream index, timestamps, duration, byte-position
hint and opaque payload. -/
structure Packet : Type where
  stream_index : Nat
  pts : Int
  dts : Int
  duration : Int
  position : Int
  data : Nat
deriving DecidableEq

/-- A demuxed input container: its streams, and its packets in file order
(`input.packets()` yields each packet paired with its owning stream). -/
structure InputContainer : Type where
  streams : List InStream
  packets : List Packet
deriving DecidableEq

/-- An output stream added by `output.add_stream`: parameters copied from the
source, a disposition bit set, and the time base the muxer assigns. -/
structure OutputStream : Type where
  params : CodecParameters
  disposition : Nat
  time_base : TimeBase
deriving DecidableEq

/-- The output container: streams in creation order, the committed metadata
dictionary, and the packets appended by `write_interleaved` in call order. -/
structure OutputContainer : Type where
  streams : List OutputStream
  metadata : List (String × String)
  packets : List Packet
deriving DecidableEq

/-- `AV_DISPOSITION_ATTACHED_PIC` (bit 10). -/
def AV_DISPOSITION_ATTACHED_PIC : Nat := 1024

/- ===================== metadata dictionary ===================== -/

/-- The `Metadata` struct shared by `src/remux.rs` and `src/lib.rs`. -/
structure Metadata : Type where
  album : Option String
  album_artist : Option String
  artist : String
  composer : Option String
  copyright : Option String
  creation_time : Option String
  date : Option String
  disc : Option String
  genre : Option String
  language : Option String
  performer : Option String
  publisher : Option String
  title : String
  track : Option String
deriving DecidableEq

/-- `Dictionary::set` (`av_dict_set`): replace the first entry holding the
key, else append a new entry. -/
def dictSet : List (String × String) → String → String → List (String × String)
  | [], k, v => [(k, v)]
  | p :: rest, k, v => if p.1 = k then (k, v) :: rest else p :: dictSet rest k v

/-- The `metadata.field.map(|v| dict.set(key, v))` / `if let Some(v)` pattern:
set the key only when the optional field is present. -/
def dictSetOpt (d : List (String × String)) (k : String) : Option String → List (String × String)
  | some v => dictSet d k v
  | none => d

/-- The tag dictionary built by `src/remux.rs` lines 69–85 (and the identical
`if let` chain in `src/lib.rs`): title and artist unconditionally, then each
optional field in source order. -/
def buildDict (m : Metadata) : List (String × String) :=
  dictSetOpt (dictSetOpt (dictSetOpt (dictSetOpt (dictSetOpt (dictSetOpt (dictSetOpt
    (dictSetOpt (dictSetOpt (dictSetOpt (dictSetOpt (dictSetOpt
      (dictSet (dictSet [] "title" m.title) "artist" m.artist)
      "album" m.album) "album_artist" m.album_artist) "composer" m.composer)
      "copyright" m.copyright) "creation_time" m.creation_time) "date" m.date)
      "disc" m.disc) "genre" m.genre) "language" m.language)
      "performer" m.performer) "publisher" m.publisher) "track" m.track

/- ===================== remux pipeline ===================== -/

/-- The stream-selection loop of `src/remux.rs` lines 36–48 / 50–63: walk the
container's streams in order and return the index and stream of the first
one whose medium matches, `none` when no stream matches (`-1` in the
source). -/
def selectStream (t : MediaType) : List InStream → Option (Nat × InStream)
  | [] => none
  | s :: rest =>
    if s.params.medium = t then some (0, s)
    else
      match selectStream t rest with
      | some (i, s2) => some (i + 1, s2)
      | none => none

/-- The packet rewrite applied inside the copy loops: `rescale_ts` (which
rescales pts, dts and duration from the input to the output time base, here
through the explicit library model `resc`), `set_stream`, and
`set_position(-1)`. -/
def rescalePkt (resc : TimeBase → TimeBase → Int → Int) (tbIn tbOut : TimeBase)
    (outIdx : Nat) (p : Packet) : Packet :=
  { stream_index := outIdx
    pts := resc tbIn tbOut p.pts
    dts := resc tbIn tbOut p.dts
    duration := resc tbIn tbOut p.duration
    position := -1
    data := p.data }

/-- One packet-copy loop of `src/remux.rs` lines 89–97 / 99–107: skip packets
not owned by the selected input stream; rewrite and append the others.  The
iterator pairs every packet with its owning stream, so the owning stream's
time base is recovered by indexing `streams` (the fallback arm is
unreachable for packets that pass the guard once the selected index is a
real stream). -/
def copyPackets (resc : TimeBase → TimeBase → Int → Int) (streams : List InStream)
    (sel : Nat) (outTB : TimeBase) (outIdx : Nat) : List Packet → List Packet
  | [] => []
  | p :: rest =>
    if p.stream_index = sel then
      (match streams[p.stream_index]? with
       | some s => rescalePkt resc s.time_base outTB outIdx p
       | none => rescalePkt resc outTB outTB outIdx p) ::
        copyPackets resc streams sel outTB outIdx rest
    else copyPackets resc streams sel outTB outIdx rest

/-- The remux pipeline of `src/remux.rs` (`remux`) and `src/lib.rs`
(`Client::remux`): select the first audio stream of the audio input and the
first video stream of the cover input, adding for each an output stream that
copies its parameters with `codec_tag` zeroed (the cover one additionally
gets `AV_DISPOSITION_ATTACHED_PIC` or-ed into its fresh disposition); fail
with `StreamNotFound` when either selection is still `-1`; commit the tag
dictionary; then copy the audio packets and the cover packets.  `resc` models
`av_packet_rescale_ts` and `muxTB i` the time base the muxer assigns to
output stream `i`. -/
def remuxCore (resc : TimeBase → TimeBase → Int → Int) (muxTB : Nat → TimeBase)
    (input_audio input_cover : InputContainer) (metadata : Metadata) :
    Except FfmpegError OutputContainer :=
  match selectStream .audio input_audio.streams, selectStream .video input_cover.streams with
  | some (ai, as0), some (ci, cs0) =>
    .ok
      { streams :=
          [{ params := { as0.params with codec_tag := 0 }
             disposition := 0
             time_base := muxTB 0 },
           { params := { cs0.params with codec_tag := 0 }
             disposition := 0 ||| AV_DISPOSITION_ATTACHED_PIC
             time_base := muxTB 1 }]
        metadata := buildDict metadata
        packets :=
          copyPackets resc input_audio.streams ai (muxTB 0) 0 input_audio.packets ++
            copyPackets resc input_cover.streams ci (muxTB 1) 1 input_cover.packets }
  | _, _ => .error .streamNotFound

/- ===================== temporary workspace client ===================== -/

/-- A file on disk, as (directory, filename). -/
abbrev FsPath : Type := String × String

/-- Removing a workspace directory removes every file inside it. -/
def destroyWorkspace (ws : String) (disk : List FsPath) : List FsPath :=
  disk.filter (fun p => ¬ p.1 = ws)

/-- Modelled from the spec: the asynchronous `Client::remux` that `src/ffi.rs`
calls as `ctx.client.remux(track, cover, metadata)` is not under `src/` (the
`lib.rs` in the tree holds a different, path-based variant).  Per spec §3,
§4.2 and §7 it creates a Temporary Workspace, stages the audio and cover
byte streams into files there, runs the remux core over the staged files
producing the output inside the workspace, and destroys the workspace on
every exit path before returning, wrapping any pipeline failure as a
`RemuxError`.  Disk state is the list of files present; the result pairs the
call's outcome with the disk after the call. -/
def clientRemux (resc : TimeBase → TimeBase → Int → Int) (muxTB : Nat → TimeBase)
    (disk : List FsPath) (ws : String) (input_audio input_cover : InputContainer)
    (metadata : Metadata) : Except Error OutputContainer × List FsPath :=
  let staged := disk ++ [(ws, "audio"), (ws, "cover")]
  match remuxCore resc muxTB input_audio input_cover metadata with
  | .error e => (.error (.remuxError e), destroyWorkspace ws staged)
  | .ok out => (.ok out, destroyWorkspace ws (staged ++ [(ws, "output")]))

/- ===================== streaming transport producers ===================== -/

/-- One result of `response.chunk().await`: a chunk, end of data, or a
transport error. -/
inductive FetchResult : Type
  | chunk (c : Nat)
  | eof
  | err (e : Nat)
deriving DecidableEq

/-- One item of the consumer-facing `Result<Bytes, Error>` sequence. -/
inductive Item : Type
  | ok (c : Nat)
  | err (e : Nat)
deriving DecidableEq

/-- The spawned producer of `Yandex::download` (`src/yandex.rs` lines
202–212): `while let Ok(chunk) = response.chunk().await { if let Some(chunk)
= chunk { if tx.send(Ok(chunk)).await is Err { break } } else { break } }`.
The source of chunks is the list of fetch results consumed in order; the
consumer is modelled as accepting exactly `limit` items before dropping its
handle, so a send succeeds iff fewer than `limit` items have been accepted
(`sent` is the running count).  The value returned is the list of items the
consumer receives together with the number of fetches the producer
performs. -/
def yandexProducer (limit : Nat) : Nat → List FetchResult → List Item × Nat
  | _, [] => ([], 0)
  | sent, .chunk c :: rest =>
    if sent < limit then
      let r := yandexProducer limit (sent + 1) rest
      (Item.ok c :: r.1, r.2 + 1)
    else ([], 1)
  | _, .eof :: _ => ([], 1)
  | _, .err _ :: _ => ([], 1)

/-- The spawned producer of `download_cover` (`src/ffi.rs` lines 220–234):
`loop { match response.chunk().await { Ok(Some(v)) => { let _ =
tx.send(Ok(v)).await; } Ok(None) => return, Err(e) => { let _ =
tx.send(Err(..)).await; return } } }`.  Same channel model as
`yandexProducer`: note that a failed send neither stops the loop nor is
surfaced. -/
def coverProducer (limit : Nat) : Nat → List FetchResult → List Item × Nat
  | _, [] => ([], 0)
  | sent, .chunk c :: rest =>
    if sent < limit then
      let r := coverProducer limit (sent + 1) rest
      (Item.ok c :: r.1, r.2 + 1)
    else
      let r := coverProducer limit sent rest
      (r.1, r.2 + 1)
  | _, .eof :: _ => ([], 1)
  | sent, .err e :: _ => (if sent < limit then [Item.err e] else [], 1)

/- ===================== module dispatcher ===================== -/

/-- The `Module` trait of `src/lib.rs` (named `SrcModule` here because
`Module` is taken by Mathlib): name, URL predicate, supported formats, and
the search / download capabilities, the latter two abstracted over their
result payloads `α` and `β`. -/
structure SrcModule (α β : Type) : Type where
  name : String
  url_supported : String → Bool
  supported_formats : List AudioFormat
  search : String → Nat → Except Error β
  download : String → String → String → Except Error α

/-- `Client::download` (`src/lib.rs` lines 165–178): first module whose URL
predicate accepts the url wins; none matching is `NoAvailableModules`. -/
def clientDownload {α β : Type} (modules : List (SrcModule α β))
    (workdir filename url : String) : Except Error α :=
  match modules with
  | [] => .error .noAvailableModules
  | m :: rest =>
    if m.url_supported url then m.download workdir filename url
    else clientDownload rest workdir filename url

/-- `Client::search` (`src/lib.rs` lines 206–219): first module whose name
equals the requested service wins; none matching is `NoAvailableModules`. -/
def clientSearch {α β : Type} (modules : List (SrcModule α β))
    (module_name query : String) (page : Nat) : Except Error β :=
  match modules with
  | [] => .error .noAvailableModules
  | m :: rest =>
    if m.name = module_name then m.search query page
    else clientSearch rest module_name query page

/- ===================== concrete fixtures ===================== -/

/-- Identity model of `av_packet_rescale_ts`, used in concrete runs. -/
def resc0 : TimeBase → TimeBase → Int → Int := fun _ _ t => t

/-- Concrete muxer-assigned time bases, used in concrete runs. -/
def tb0 : Nat → TimeBase := fun i => ⟨1, 1000 * (Int.ofNat i + 1)⟩

def sAudio : InStream :=
  { params := { medium := .audio, codec_tag := 7, extra := 1 }, time_base := ⟨1, 44100⟩ }

def sVideo : InStream :=
  { params := { medium := .video, codec_tag := 8, extra := 2 }, time_base := ⟨1, 25⟩ }

def sData : InStream :=
  { params := { medium := .data, codec_tag := 9, extra := 3 }, time_base := ⟨1, 90000⟩ }

def pktA : Packet :=
  { stream_index := 0, pts := 100, dts := 90, duration := 10, position := 5, data := 11 }

def pktB : Packet :=
  { stream_index := 1, pts := 200, dts := 190, duration := 10, position := 6, data := 12 }

def pktV : Packet :=
  { stream_index := 0, pts := 0, dts := 0, duration := 1, position := 7, data := 13 }

/-- Audio input with one audio stream and one stray packet of another stream. -/
def ia1 : InputContainer := { streams := [sAudio], packets := [pktA, pktB] }

/-- Cover input with one video stream. -/
def ic1 : InputContainer := { streams := [sVideo], packets := [pktV] }

/-- An audio input holding no audio-typed stream. -/
def iaNoAudio : InputContainer := { streams := [sData], packets := [pktA] }

/-- A cover input holding no video-typed stream. -/
def icNoVideo : InputContainer := { streams := [sData], packets := [pktV] }

def m1 : Metadata :=
  { album := some "AL", album_artist := none, artist := "A", composer := none
    copyright := none, creation_time := none, date := none, disc := none
    genre := none, language := none, performer := none, publisher := none
    title := "T", track := none }

/-- The container `remuxCore` produces on the concrete fixtures above. -/
def outEx : OutputContainer :=
  { streams :=
      [{ params := { medium := .audio, codec_tag := 0, extra := 1 }, disposition := 0,
         time_base := ⟨1, 1000⟩ },
       { params := { medium := .video, codec_tag := 0, extra := 2 }, disposition := 1024,
         time_base := ⟨1, 2000⟩ }]
    metadata := [("title", "T"), ("artist", "A"), ("album", "AL")]
    packets :=
      [{ stream_index := 0, pts := 100, dts := 90, duration := 10, position := -1, data := 11 },
       { stream_index := 1, pts := 0, dts := 0, duration := 1, position := -1, data := 13 }] }

/-- `i` is the index of the first element of `l` satisfying `p`. -/
def firstWith {γ : Type} (p : γ → Prop) (l : List γ) (i : Nat) : Prop :=
  ∃ h : i < l.length, p (l.get ⟨i, h⟩) ∧
    ∀ j (hj : j < l.length), j < i → ¬ p (l.get ⟨j, hj⟩)

/- ===================== helper lemmas ===================== -/

theorem lookup_dictSet (d : List (String × String)) (k v k2 : String) :
    (dictSet d k v).lookup k2 = if k2 = k then some v else d.lookup k2 := by
  induction d with
  | nil =>
    by_cases h : k2 = k
    · have hb : (k2 == k) = true := beq_iff_eq.mpr h
      simp [dictSet, List.lookup, hb, h]
    · have hb : (k2 == k) = false := beq_eq_false_iff_ne.mpr h
      simp [dictSet, List.lookup, hb, h]
  | cons p tl ih =>
    by_cases h1 : p.1 = k
    · by_cases h2 : k2 = k
      · have hb : (k2 == k) = true := beq_iff_eq.mpr h2
        simp [dictSet, h1, List.lookup, hb, h2]
      · have hb : (k2 == k) = false := beq_eq_false_iff_ne.mpr h2
        have hbp : (k2 == p.1) = false := beq_eq_false_iff_ne.mpr (by rw [h1]; exact h2)
        simp [dictSet, h1, List.lookup, hb, hbp, h2]
    · by_cases h2 : k2 = p.1
      · have h3 : ¬ k2 = k := fun hc => h1 (by rw [← h2]; exact hc)
        have hbp : (k2 == p.1) = true := beq_iff_eq.mpr h2
        simp [dictSet, h1, List.lookup, hbp, h3]
      · have hbp : (k2 == p.1) = false := beq_eq_false_iff_ne.mpr h2
        simp only [dictSet, if_neg h1, List.lookup, hbp, ih]

theorem lookup_dictSetOpt_ne (d : List (String × String)) (k k2 : String)
    (o : Option String) (h : ¬ k2 = k) :
    (dictSetOpt d k o).lookup k2 = d.lookup k2 := by
  cases o <;> simp [dictSetOpt, lookup_dictSet, h]

theorem lookup_dictSetOpt_self (d : List (String × String)) (k : String)
    (o : Option String) (h : d.lookup k = none) :
    (dictSetOpt d k o).lookup k = o := by
  cases o <;> simp [dictSetOpt, lookup_dictSet, h]

theorem buildDict_lookup (m : Metadata) :
    (buildDict m).lookup "title" = some m.title ∧
    (buildDict m).lookup "artist" = some m.artist ∧
    (buildDict m).lookup "album" = m.album ∧
    (buildDict m).lookup "album_artist" = m.album_artist ∧
    (buildDict m).lookup "composer" = m.composer ∧
    (buildDict m).lookup "copyright" = m.copyright ∧
    (buildDict m).lookup "creation_time" = m.creation_time ∧
    (buildDict m).lookup "date" = m.date ∧
    (buildDict m).lookup "disc" = m.disc ∧
    (buildDict m).lookup "genre" = m.genre ∧
    (buildDict m).lookup "language" = m.language ∧
    (buildDict m).lookup "performer" = m.performer ∧
    (buildDict m).lookup "publisher" = m.publisher ∧
    (buildDict m).lookup "track" = m.track := by
  refine ⟨?_, ?_, ?_, ?_, ?_, ?_, ?_, ?_, ?_, ?_, ?_, ?_, ?_, ?_⟩ <;>
    simp [buildDict, lookup_dictSetOpt_ne, lookup_dictSetOpt_self, lookup_dictSet,
      List.lookup]

theorem selectStream_none_iff (t : MediaType) (l : List InStream) :
    selectStream t l = none ↔ ∀ s ∈ l, ¬ s.params.medium = t := by
  induction l with
  | nil => simp [selectStream]
  | cons s rest ih =>
    constructor
    · intro h x hx
      by_cases hm : s.params.medium = t
      · rw [selectStream, if_pos hm] at h
        exact absurd h (by simp)
      · rcases List.mem_cons.mp hx with h1 | h2
        · rw [h1]; exact hm
        · refine ih.mp ?_ x h2
          rw [selectStream, if_neg hm] at h
          cases hsel : selectStream t rest with
          | none => rfl
          | some pr =>
            obtain ⟨a, b⟩ := pr
            rw [hsel] at h
            exact absurd h (by simp)
    · intro hall
      have hm : ¬ s.params.medium = t := hall s (List.mem_cons_self s rest)
      have hrest : selectStream t rest = none :=
        ih.mpr (fun x hx => hall x (List.mem_cons_of_mem s hx))
      rw [selectStream, if_neg hm, hrest]

theorem selectStream_some (t : MediaType) (l : List InStream) (i : Nat) (s : InStream)
    (h : selectStream t l = some (i, s)) :
    ∃ hi : i < l.length,
      l.get ⟨i, hi⟩ = s ∧ s.params.medium = t ∧
        ∀ j (hj : j < l.length), j < i → ¬ (l.get ⟨j, hj⟩).params.medium = t := by
  induction l generalizing i with
  | nil => simp [selectStream] at h
  | cons hd tl ih =>
    by_cases hm : hd.params.medium = t
    · simp only [selectStream, if_pos hm, Option.some.injEq, Prod.mk.injEq] at h
      obtain ⟨hi0, hs0⟩ := h
      subst hi0
      refine ⟨by simp, by simpa using hs0.symm ▸ rfl, ?_, ?_⟩
      · rw [← hs0]; exact hm
      · intro j hj hlt; omega
    · simp only [selectStream, if_neg hm] at h
      cases hsel : selectStream t tl with
      | none => rw [hsel] at h; exact absurd h (by simp)
      | some pr =>
        rw [hsel] at h
        obtain ⟨i2, s2⟩ := pr
        simp only [Option.some.injEq, Prod.mk.injEq] at h
        obtain ⟨hi2, hs2⟩ := h
        subst hs2
        obtain ⟨hlen, hget, hmed, hfirst⟩ := ih i2 hsel
        refine ⟨by simp; omega, ?_, hmed, ?_⟩
        · have : i = i2 + 1 := hi2.symm
          subst this
          simpa using hget
        · intro j hj hlt
          cases j with
          | zero => simpa using hm
          | succ j2 =>
            have hj2 : j2 < tl.length := by simp at hj; omega
            have : j2 < i2 := by omega
            simpa using hfirst j2 hj2 this

theorem selectStream_get (t : MediaType) (l : List InStream) (i : Nat) (s : InStream)
    (h : selectStream t l = some (i, s)) : l[i]? = some s := by
  obtain ⟨hi, hget, _, _⟩ := selectStream_some t l i s h
  rw [List.getElem?_eq_getElem hi]
  simpa [← List.get_eq_getElem] using hget

theorem remuxCore_ok (resc : TimeBase → TimeBase → Int → Int) (muxTB : Nat → TimeBase)
    (ia ic : InputContainer) (m : Metadata) (out : OutputContainer)
    (h : remuxCore resc muxTB ia ic m = .ok out) :
    ∃ ai as0 ci cs0,
      selectStream .audio ia.streams = some (ai, as0) ∧
      selectStream .video ic.streams = some (ci, cs0) ∧
      out =
        { streams :=
            [{ params := { as0.params with codec_tag := 0 }
               disposition := 0
               time_base := muxTB 0 },
             { params := { cs0.params with codec_tag := 0 }
               disposition := 0 ||| AV_DISPOSITION_ATTACHED_PIC
               time_base := muxTB 1 }]
          metadata := buildDict m
          packets :=
            copyPackets resc ia.streams ai (muxTB 0) 0 ia.packets ++
              copyPackets resc ic.streams ci (muxTB 1) 1 ic.packets } := by
  unfold remuxCore at h
  cases ha : selectStream .audio ia.streams with
  | none => rw [ha] at h; exact absurd h (by simp)
  | some pa =>
    cases hc : selectStream .video ic.streams with
    | none => rw [ha, hc] at h; exact absurd h (by simp)
    | some pc =>
      obtain ⟨ai, as0⟩ := pa
      obtain ⟨ci, cs0⟩ := pc
      rw [ha, hc] at h
      simp only [Except.ok.injEq] at h
      exact ⟨ai, as0, ci, cs0, rfl, rfl, h.symm⟩

theorem remuxCore_error_iff (resc : TimeBase → TimeBase → Int → Int)
    (muxTB : Nat → TimeBase) (ia ic : InputContainer) (m : Metadata) :
    remuxCore resc muxTB ia ic m = .error .streamNotFound ↔
      selectStream .audio ia.streams = none ∨ selectStream .video ic.streams = none := by
  unfold remuxCore
  cases ha : selectStream .audio ia.streams with
  | none => simp
  | some pa =>
    cases hc : selectStream .video ic.streams with
    | none => simp
    | some pc =>
      obtain ⟨ai, as0⟩ := pa
      obtain ⟨ci, cs0⟩ := pc
      simp

theorem copyPackets_eq (resc : TimeBase → TimeBase → Int → Int) (streams : List InStream)
    (sel : Nat) (s : InStream) (outTB : TimeBase) (outIdx : Nat)
    (hs : streams[sel]? = some s) (pkts : List Packet) :
    copyPackets resc streams sel outTB outIdx pkts =
      (pkts.filter (fun p => p.stream_index = sel)).map
        (rescalePkt resc s.time_base outTB outIdx) := by
  induction pkts with
  | nil => simp [copyPackets]
  | cons p rest ih =>
    by_cases h : p.stream_index = sel
    · have hdec : (decide (p.stream_index = sel)) = true := decide_eq_true h
      simp [copyPackets, h, hs, List.filter, hdec, ih]
    · have hdec : (decide (p.stream_index = sel)) = false := decide_eq_false h
      simp [copyPackets, if_neg h, List.filter, hdec, ih]

theorem clientDownload_first {α β : Type} (modules : List (SrcModule α β))
    (w f url : String) (i : Nat) (hi : i < modules.length)
    (hmatch : (modules.get ⟨i, hi⟩).url_supported url = true)
    (hbefore : ∀ j (hj : j < modules.length), j < i →
      (modules.get ⟨j, hj⟩).url_supported url = false) :
    clientDownload modules w f url = (modules.get ⟨i, hi⟩).download w f url := by
  induction modules generalizing i with
  | nil => simp at hi
  | cons m rest ih =>
    cases i with
    | zero =>
      simp only [List.get] at hmatch ⊢
      rw [clientDownload, if_pos hmatch]
    | succ i2 =>
      have h0 : m.url_supported url = false := by
        have := hbefore 0 (by simp) (by omega)
        simpa using this
      rw [clientDownload, if_neg (by simp [h0])]
      have hi2 : i2 < rest.length := by simp at hi; omega
      have := ih i2 hi2 (by simpa using hmatch)
        (fun j hj hlt => by
          have := hbefore (j + 1) (by simp; omega) (by omega)
          simpa using this)
      simpa using this

theorem clientDownload_nomatch {α β : Type} (modules : List (SrcModule α β))
    (w f url : String) (hall : ∀ m ∈ modules, m.url_supported url = false) :
    clientDownload modules w f url = .error .noAvailableModules := by
  induction modules with
  | nil => rfl
  | cons m rest ih =>
    rw [clientDownload, if_neg (by simp [hall m (List.mem_cons_self m rest)])]
    exact ih (fun x hx => hall x (List.mem_cons_of_mem m hx))

theorem clientSearch_nomatch {α β : Type} (modules : List (SrcModule α β))
    (module_name query : String) (page : Nat)
    (hall : ∀ m ∈ modules, ¬ m.name = module_name) :
    clientSearch modules module_name query page = .error .noAvailableModules := by
  induction modules with
  | nil => rfl
  | cons m rest ih =>
    rw [clientSearch, if_neg (hall m (List.mem_cons_self m rest))]
    exact ih (fun x hx => hall x (List.mem_cons_of_mem m hx))

theorem yandexProducer_err (limit e : Nat) :
    ∀ (cs : List Nat) (sent : Nat), sent + cs.length < limit →
      yandexProducer limit sent (cs.map FetchResult.chunk ++ [FetchResult.err e]) =
        (cs.map Item.ok, cs.length + 1) := by
  intro cs
  induction cs with
  | nil =>
    intro sent h
    simp [yandexProducer]
  | cons c rest ih =>
    intro sent h
    simp only [List.map_cons, List.cons_append, yandexProducer, List.append_eq,
      if_pos (show sent < limit by simp at h; omega)]
    rw [ih (sent + 1) (by simp at h ⊢; omega)]
    simp

theorem coverProducer_err (limit e : Nat) :
    ∀ (cs : List Nat) (sent : Nat), sent + cs.length < limit →
      coverProducer limit sent (cs.map FetchResult.chunk ++ [FetchResult.err e]) =
        (cs.map Item.ok ++ [Item.err e], cs.length + 1) := by
  intro cs
  induction cs with
  | nil =>
    intro sent h
    simp only [List.map_nil, List.nil_append, coverProducer]
    rw [if_pos (by omega)]
    simp
  | cons c rest ih =>
    intro sent h
    simp only [List.map_cons, List.cons_append, coverProducer, List.append_eq,
      if_pos (show sent < limit by simp at h; omega)]
    rw [ih (sent + 1) (by simp at h ⊢; omega)]
    simp

theorem yandexProducer_drop (limit : Nat) :
    ∀ (cs : List Nat) (sent : Nat), sent ≤ limit → limit - sent < cs.length →
      yandexProducer limit sent (cs.map FetchResult.chunk ++ [FetchResult.eof]) =
        ((cs.take (limit - sent)).map Item.ok, (limit - sent) + 1) := by
  intro cs
  induction cs with
  | nil => intro sent h1 h2; simp at h2
  | cons c rest ih =>
    intro sent h1 h2
    by_cases hlt : sent < limit
    · simp only [List.map_cons, List.cons_append, yandexProducer, List.append_eq, if_pos hlt]
      rw [ih (sent + 1) (by omega) (by simp at h2 ⊢; omega)]
      have hts : limit - sent = (limit - (sent + 1)) + 1 := by omega
      rw [hts]
      simp
    · have hsent : sent = limit := by omega
      simp only [List.map_cons, List.cons_append, yandexProducer, List.append_eq, if_neg hlt]
      rw [hsent]
      simp

theorem coverProducer_drop (limit : Nat) :
    ∀ (cs : List Nat) (sent : Nat),
      coverProducer limit sent (cs.map FetchResult.chunk ++ [FetchResult.eof]) =
        ((cs.take (limit - sent)).map Item.ok, cs.length + 1) := by
  intro cs
  induction cs with
  | nil => intro sent; simp [coverProducer]
  | cons c rest ih =>
    intro sent
    by_cases hlt : sent < limit
    · simp only [List.map_cons, List.cons_append, coverProducer, List.append_eq, if_pos hlt]
      rw [ih (sent + 1)]
      have hts : limit - sent = (limit - (sent + 1)) + 1 := by omega
      rw [hts]
      simp
    · have hz : limit - sent = 0 := by omega
      simp only [List.map_cons, List.cons_append, coverProducer, List.append_eq, if_neg hlt]
      rw [ih sent, hz]
      simp

/-- Shared evaluation of the remux pipeline on the concrete fixtures. -/
theorem remuxCore_outEx : remuxCore resc0 tb0 ia1 ic1 m1 = .ok outEx := by decide

/-- C1, counterexample to the claim as stated: the audio input holds an
audio-typed stream and the cover input holds no video-typed stream, yet the
operation fails with `StreamNotFound` instead of skipping the cover track —
in `src/remux.rs` line 65 (and `src/lib.rs` line 263) a missing cover
stream is fatal exactly like a missing audio stream. -/
theorem remux_cover_required_cex :
    (∃ s ∈ ia1.streams, s.params.medium = .audio) ∧
    (∀ s ∈ icNoVideo.streams, ¬ s.params.medium = .video) ∧
    remuxCore resc0 tb0 ia1 icNoVideo m1 = .error .streamNotFound := by decide

/-- C1 (amended): the engine scans the audio input's streams in order and
selects the first audio-typed one, and scans the cover input's streams in
order and selects the first video-typed one; the remux fails with a fatal
`StreamNotFound` error iff either no audio-typed stream exists or no
video-typed cover stream exists (the cover stream is required; its absence
is an error, not a silent skip). -/
theorem remux_stream_selection (resc : TimeBase → TimeBase → Int → Int)
    (muxTB : Nat → TimeBase) (ia ic : InputContainer) (m : Metadata) :
    (remuxCore resc muxTB ia ic m = .error .streamNotFound ↔
      (∀ s ∈ ia.streams, ¬ s.params.medium = .audio) ∨
      (∀ s ∈ ic.streams, ¬ s.params.medium = .video)) ∧
    (∀ out, remuxCore resc muxTB ia ic m = .ok out →
      ∃ (i : Nat) (j : Nat) (hi : i < ia.streams.length) (hj : j < ic.streams.length),
        firstWith (fun s => s.params.medium = .audio) ia.streams i ∧
        firstWith (fun s => s.params.medium = .video) ic.streams j ∧
        out.streams.map (fun s => s.params) =
          [{ (ia.streams.get ⟨i, hi⟩).params with codec_tag := 0 },
           { (ic.streams.get ⟨j, hj⟩).params with codec_tag := 0 }]) := by
  constructor
  · simp only [remuxCore_error_iff, selectStream_none_iff]
  · intro out hok
    obtain ⟨ai, as0, ci, cs0, ha, hc, hout⟩ := remuxCore_ok resc muxTB ia ic m out hok
    obtain ⟨hia, hgeta, hmeda, hfirsta⟩ := selectStream_some .audio ia.streams ai as0 ha
    obtain ⟨hic, hgetc, hmedc, hfirstc⟩ := selectStream_some .video ic.streams ci cs0 hc
    refine ⟨ai, ci, hia, hic, ⟨hia, ?_, hfirsta⟩, ⟨hic, ?_, hfirstc⟩, ?_⟩
    · rw [hgeta]; exact hmeda
    · rw [hgetc]; exact hmedc
    · rw [hout]
      simp only [List.map_cons, List.map_nil]
      rw [hgeta, hgetc]

/-- Witness for C1's theorem at concrete inputs: an audio container with no
audio-typed stream makes the remux fail with `StreamNotFound`. -/
theorem remux_stream_selection_witness :
    remuxCore resc0 tb0 iaNoAudio ic1 m1 = .error .streamNotFound :=
  (remux_stream_selection resc0 tb0 iaNoAudio ic1 m1).1.mpr (Or.inl (by decide))

/-- C2: a remux invocation whose audio input holds zero audio-typed streams
returns a `RemuxError`, and after it returns the target output file (staged
inside the Temporary Workspace, which is destroyed on the error path) does
not exist on disk. -/
theorem clientRemux_no_audio (resc : TimeBase → TimeBase → Int → Int)
    (muxTB : Nat → TimeBase) (disk : List FsPath) (ws : String)
    (ia ic : InputContainer) (m : Metadata)
    (h : ∀ s ∈ ia.streams, ¬ s.params.medium = .audio) :
    (clientRemux resc muxTB disk ws ia ic m).1 = .error (.remuxError .streamNotFound) ∧
    (ws, "output") ∉ (clientRemux resc muxTB disk ws ia ic m).2 := by
  have hsel : selectStream .audio ia.streams = none := (selectStream_none_iff _ _).mpr h
  have herr : remuxCore resc muxTB ia ic m = .error .streamNotFound :=
    (remuxCore_error_iff resc muxTB ia ic m).mpr (Or.inl hsel)
  constructor
  · simp [clientRemux, herr]
  · simp [clientRemux, herr, destroyWorkspace, List.mem_filter]

/-- Witness for C2's theorem at concrete inputs. -/
theorem clientRemux_no_audio_witness :
    (clientRemux resc0 tb0 [] "tmp" iaNoAudio ic1 m1).1 =
      .error (.remuxError .streamNotFound) ∧
    ("tmp", "output") ∉ (clientRemux resc0 tb0 [] "tmp" iaNoAudio ic1 m1).2 :=
  clientRemux_no_audio resc0 tb0 [] "tmp" iaNoAudio ic1 m1 (by decide)

/-- C3: on every exit path of a remux invocation — error or success — no file
under the Temporary Workspace directory is present on disk when the call
returns: the staged inputs and the intermediate output do not outlive the
call. -/
theorem clientRemux_workspace_destroyed (resc : TimeBase → TimeBase → Int → Int)
    (muxTB : Nat → TimeBase) (disk : List FsPath) (ws : String)
    (ia ic : InputContainer) (m : Metadata) :
    ∀ f ∈ (clientRemux resc muxTB disk ws ia ic m).2, ¬ f.1 = ws := by
  intro f hf
  unfold clientRemux at hf
  cases hrem : remuxCore resc muxTB ia ic m with
  | error e =>
    rw [hrem] at hf
    simp only [destroyWorkspace, List.mem_filter, decide_eq_true_eq] at hf
    exact hf.2
  | ok out =>
    rw [hrem] at hf
    simp only [destroyWorkspace, List.mem_filter, decide_eq_true_eq] at hf
    exact hf.2

/-- Witness for C3's theorem at concrete inputs: the staged audio file is
gone after the call. -/
theorem clientRemux_workspace_destroyed_witness :
    ("tmp", "audio") ∉ (clientRemux resc0 tb0 [] "tmp" ia1 ic1 m1).2 :=
  fun hmem =>
    clientRemux_workspace_destroyed resc0 tb0 [] "tmp" ia1 ic1 m1 ("tmp", "audio") hmem rfl

/-- C4, counterexample to the claim as stated: the yandex track producer
(`while let Ok(chunk) = response.chunk().await` in `src/yandex.rs`) meets a
fetch failure on its second fetch, yet the consumer-facing sequence it fed
is `[ok 5]` — the sequence ends with zero `Err` items instead of the claimed
exactly one. -/
theorem yandex_error_delivery_cex :
    yandexProducer 16 0 [FetchResult.chunk 5, FetchResult.err 7] = ([Item.ok 5], 2) := by
  decide

/-- C4 (amended): when the producer's next-chunk fetch fails after `cs`
successful chunks (the consumer stays attached), the failed chunk is never
retried and nothing follows the failure — both producers stop after exactly
`cs.length + 1` fetches — but only the ffi cover producer delivers the error
as a single final `Err` item; the yandex track producer swallows it and ends
the sequence with no `Err` item at all. -/
theorem producer_error_delivery (cs : List Nat) (e limit : Nat) (h : cs.length < limit) :
    coverProducer limit 0 (cs.map FetchResult.chunk ++ [FetchResult.err e]) =
      (cs.map Item.ok ++ [Item.err e], cs.length + 1) ∧
    yandexProducer limit 0 (cs.map FetchResult.chunk ++ [FetchResult.err e]) =
      (cs.map Item.ok, cs.length + 1) :=
  ⟨coverProducer_err limit e cs 0 (by omega), yandexProducer_err limit e cs 0 (by omega)⟩

/-- Witness for C4's theorem at concrete inputs. -/
theorem producer_error_delivery_witness :
    coverProducer 16 0 [FetchResult.chunk 5, FetchResult.err 7] =
      ([Item.ok 5, Item.err 7], 2) ∧
    yandexProducer 16 0 [FetchResult.chunk 5, FetchResult.err 7] = ([Item.ok 5], 2) := by
  have h := producer_error_delivery [5] 7 16 (by decide)
  simpa using h

/-- C5, counterexample to the claim as stated: with the consumer dropped
from the start (it accepts 0 items), the ffi cover producer of
`src/ffi.rs` performs 3 fetches over a two-chunk source — its failed sends
are swallowed but it keeps fetching and sending until end-of-data instead of
terminating after at most one failed send attempt. -/
theorem cover_producer_cancellation_cex :
    coverProducer 0 0 [FetchResult.chunk 1, FetchResult.chunk 2, FetchResult.eof] =
      ([], 3) := by
  decide

/-- C5 (amended): once the consumer has received `limit` items and dropped
its handle (with more chunks still available), every failed send is
swallowed locally and no error surfaces in either producer; the yandex track
producer terminates after that one failed send (`limit + 1` fetches in
total), while the ffi cover producer keeps fetching and attempting sends
until the source is exhausted (`cs.length + 1` fetches). -/
theorem producer_cancellation (cs : List Nat) (limit : Nat) (h : limit < cs.length) :
    yandexProducer limit 0 (cs.map FetchResult.chunk ++ [FetchResult.eof]) =
      ((cs.take limit).map Item.ok, limit + 1) ∧
    coverProducer limit 0 (cs.map FetchResult.chunk ++ [FetchResult.eof]) =
      ((cs.take limit).map Item.ok, cs.length + 1) := by
  refine ⟨?_, ?_⟩
  · have h1 := yandexProducer_drop limit cs 0 (by omega) (by omega)
    simpa using h1
  · have h2 := coverProducer_drop limit cs 0
    simpa using h2

/-- Witness for C5's theorem at concrete inputs. -/
theorem producer_cancellation_witness :
    yandexProducer 1 0 [FetchResult.chunk 1, FetchResult.chunk 2, FetchResult.eof] =
      ([Item.ok 1], 2) ∧
    coverProducer 1 0 [FetchResult.chunk 1, FetchResult.chunk 2, FetchResult.eof] =
      ([Item.ok 1], 3) := by
  have h := producer_cancellation [1, 2] 1 (by decide)
  simpa using h

/-- C6: `Client::download` walks the registered modules in order and returns
the result of the first module whose URL predicate accepts the url — even
when that result is itself an error, so no fallback to a later matching
module; when no module's predicate accepts the url it returns
`NoAvailableModules`, and `Client::search` with a service name no module
bears fails with that same error. -/
theorem client_dispatch_first_match {α β : Type} (modules : List (SrcModule α β))
    (workdir filename url service query : String) (page : Nat) :
    (∀ i (hi : i < modules.length),
        (modules.get ⟨i, hi⟩).url_supported url = true →
        (∀ j (hj : j < modules.length), j < i →
          (modules.get ⟨j, hj⟩).url_supported url = false) →
        clientDownload modules workdir filename url =
          (modules.get ⟨i, hi⟩).download workdir filename url) ∧
    ((∀ m ∈ modules, m.url_supported url = false) →
        clientDownload modules workdir filename url = .error .noAvailableModules) ∧
    ((∀ m ∈ modules, ¬ m.name = service) →
        clientSearch modules service query page = .error .noAvailableModules) :=
  ⟨fun i hi hm hb => clientDownload_first modules workdir filename url i hi hm hb,
   clientDownload_nomatch modules workdir filename url,
   clientSearch_nomatch modules service query page⟩

/-- First registered test module: accepts only url "x", download fails. -/
def modFail : SrcModule Nat Nat :=
  { name := "one", url_supported := fun u => u == "x", supported_formats := [.flac]
    search := fun _ _ => .ok 1, download := fun _ _ _ => .error (.serviceError "boom") }

/-- Second registered test module: accepts every url, download succeeds. -/
def modOk : SrcModule Nat Nat :=
  { name := "two", url_supported := fun _ => true, supported_formats := [.flac]
    search := fun _ _ => .ok 2, download := fun _ _ _ => .ok 42 }

/-- Witness for C6's theorem: the first matching module's failed download is
returned verbatim (no fallback to the second module that would succeed), and
an unregistered service name yields `NoAvailableModules`. -/
theorem client_dispatch_first_match_witness :
    clientDownload [modFail, modOk] "w" "f" "x" = .error (.serviceError "boom") ∧
    clientSearch [modFail, modOk] "zzz" "q" 0 = .error .noAvailableModules := by
  have h := client_dispatch_first_match [modFail, modOk] "w" "f" "x" "zzz" "q" 0
  constructor
  · have h1 := h.1 0 (by decide) (by decide)
      (fun j hj hlt => absurd hlt (Nat.not_lt_zero j))
    simpa using h1
  · exact h.2.2 (by decide)

/-- C7: on every successful remux, the tag dictionary committed to the
output container holds title and artist unconditionally, and each of the
twelve optional entries resolves to exactly the corresponding `Metadata`
field — present iff the field is `some`, with its value, and absent (never
an empty string) when the field is unset. -/
theorem remux_metadata_tags (resc : TimeBase → TimeBase → Int → Int)
    (muxTB : Nat → TimeBase) (ia ic : InputContainer) (m : Metadata)
    (out : OutputContainer) (h : remuxCore resc muxTB ia ic m = .ok out) :
    out.metadata.lookup "title" = some m.title ∧
    out.metadata.lookup "artist" = some m.artist ∧
    out.metadata.lookup "album" = m.album ∧
    out.metadata.lookup "album_artist" = m.album_artist ∧
    out.metadata.lookup "composer" = m.composer ∧
    out.metadata.lookup "copyright" = m.copyright ∧
    out.metadata.lookup "creation_time" = m.creation_time ∧
    out.metadata.lookup "date" = m.date ∧
    out.metadata.lookup "disc" = m.disc ∧
    out.metadata.lookup "genre" = m.genre ∧
    out.metadata.lookup "language" = m.language ∧
    out.metadata.lookup "performer" = m.performer ∧
    out.metadata.lookup "publisher" = m.publisher ∧
    out.metadata.lookup "track" = m.track := by
  obtain ⟨ai, as0, ci, cs0, _, _, hout⟩ := remuxCore_ok resc muxTB ia ic m out h
  rw [hout]
  exact buildDict_lookup m

/-- Witness for C7's theorem on the concrete fixtures: set fields appear
with their values, an unset field is absent. -/
theorem remux_metadata_tags_witness :
    outEx.metadata.lookup "title" = some "T" ∧
    outEx.metadata.lookup "album" = some "AL" ∧
    outEx.metadata.lookup "genre" = none := by
  have h := remux_metadata_tags resc0 tb0 ia1 ic1 m1 outEx remuxCore_outEx
  exact ⟨h.1, h.2.2.1, h.2.2.2.2.2.2.2.2.2.1⟩

/-- C8: every successful remux yields exactly two output streams; each
copies the codec parameters of the selected audio-typed respectively
video-typed input stream with the codec tag field reset to zero, and only
the second (cover) stream carries the attached-picture disposition bit. -/
theorem remux_output_two_streams (resc : TimeBase → TimeBase → Int → Int)
    (muxTB : Nat → TimeBase) (ia ic : InputContainer) (m : Metadata)
    (out : OutputContainer) (h : remuxCore resc muxTB ia ic m = .ok out) :
    ∃ s0 s1, out.streams = [s0, s1] ∧
      (∃ a ∈ ia.streams, a.params.medium = .audio ∧
        s0.params = { a.params with codec_tag := 0 }) ∧
      (∃ c ∈ ic.streams, c.params.medium = .video ∧
        s1.params = { c.params with codec_tag := 0 }) ∧
      s0.params.codec_tag = 0 ∧ s1.params.codec_tag = 0 ∧
      s1.disposition.testBit 10 = true ∧ s0.disposition.testBit 10 = false := by
  obtain ⟨ai, as0, ci, cs0, ha, hc, hout⟩ := remuxCore_ok resc muxTB ia ic m out h
  obtain ⟨hia, hgeta, hmeda, _⟩ := selectStream_some .audio ia.streams ai as0 ha
  obtain ⟨hic, hgetc, hmedc, _⟩ := selectStream_some .video ic.streams ci cs0 hc
  have hmema : as0 ∈ ia.streams := by rw [← hgeta]; exact List.get_mem ia.streams ai hia
  have hmemc : cs0 ∈ ic.streams := by rw [← hgetc]; exact List.get_mem ic.streams ci hic
  subst hout
  refine ⟨_, _, rfl, ⟨as0, hmema, hmeda, rfl⟩, ⟨cs0, hmemc, hmedc, rfl⟩,
    rfl, rfl, ?_, ?_⟩
  · show (0 ||| AV_DISPOSITION_ATTACHED_PIC).testBit 10 = true
    decide
  · show (0 : Nat).testBit 10 = false
    decide

/-- Witness for C8's theorem on the concrete fixtures. -/
theorem remux_output_two_streams_witness :
    ∃ s0 s1, outEx.streams = [s0, s1] ∧
      s1.disposition.testBit 10 = true ∧ s0.disposition.testBit 10 = false := by
  obtain ⟨s0, s1, h1, _, _, _, _, h6, h7⟩ :=
    remux_output_two_streams resc0 tb0 ia1 ic1 m1 outEx remuxCore_outEx
  exact ⟨s0, s1, h1, h6, h7⟩

/-- C9: the successful output's packet list is all packets of the audio
container whose stream index equals the selected audio index, in source
order, followed by all packets of the cover container whose stream index
equals the selected cover index, in source order; each copied packet has its
pts, dts and duration rescaled from the owning input stream's time base to
the output stream's time base, its stream index remapped to the output index
(0 for audio, 1 for cover) and its position hint cleared to -1. -/
theorem remux_packet_copy (resc : TimeBase → TimeBase → Int → Int)
    (muxTB : Nat → TimeBase) (ia ic : InputContainer) (m : Metadata)
    (i : Nat) (si : InStream) (j : Nat) (sj : InStream) (out : OutputContainer)
    (ha : selectStream .audio ia.streams = some (i, si))
    (hc : selectStream .video ic.streams = some (j, sj))
    (h : remuxCore resc muxTB ia ic m = .ok out) :
    out.packets =
      (ia.packets.filter (fun p => p.stream_index = i)).map
        (rescalePkt resc si.time_base (muxTB 0) 0) ++
      (ic.packets.filter (fun p => p.stream_index = j)).map
        (rescalePkt resc sj.time_base (muxTB 1) 1) := by
  obtain ⟨ai, as0, ci, cs0, ha2, hc2, hout⟩ := remuxCore_ok resc muxTB ia ic m out h
  rw [ha] at ha2
  rw [hc] at hc2
  obtain ⟨hi1, hi2⟩ := Prod.mk.injEq _ _ _ _ ▸ Option.some.inj ha2
  obtain ⟨hj1, hj2⟩ := Prod.mk.injEq _ _ _ _ ▸ Option.some.inj hc2
  subst hi1; subst hi2; subst hj1; subst hj2
  subst hout
  rw [copyPackets_eq resc ia.streams i si (muxTB 0) 0 (selectStream_get _ _ _ _ ha) ia.packets,
    copyPackets_eq resc ic.streams j sj (muxTB 1) 1 (selectStream_get _ _ _ _ hc) ic.packets]

/-- Witness for C9's theorem on the concrete fixtures: the stray packet with
a foreign stream index is dropped, and the copied packets are rescaled,
remapped and position-cleared. -/
theorem remux_packet_copy_witness :
    outEx.packets =
      [{ stream_index := 0, pts := 100, dts := 90, duration := 10, position := -1, data := 11 },
       { stream_index := 1, pts := 0, dts := 0, duration := 1, position := -1, data := 13 }] := by
  rw [remux_packet_copy resc0 tb0 ia1 ic1 m1 0 sAudio 0 sVideo outEx
    (by decide) (by decide) remuxCore_outEx]
  decide

/-- C10: parsing a format's own MIME type succeeds and returns the same
variant tag — `Flac`, `Mp3` and `Aac` round-trip with the bitrate argument
reset to 0, and every `CoverFormat` round-trips exactly. -/
theorem format_mime_roundtrip :
    AudioFormat.try_from AudioFormat.flac.mime_type = .ok .flac ∧
    (∀ b, AudioFormat.try_from (AudioFormat.mp3 b).mime_type = .ok (.mp3 0)) ∧
    (∀ b, AudioFormat.try_from (AudioFormat.aac b).mime_type = .ok (.aac 0)) ∧
    (∀ c : CoverFormat, CoverFormat.try_from c.mime_type = .ok c) := by
  refine ⟨by decide, fun b => ?_, fun b => ?_, fun c => ?_⟩
  · rfl
  · rfl
  · cases c <;> rfl
